import Mathlib

/-!
Verification development for the GEOseis seismic-analysis core.

The definitions below are shallow embeddings of the two subsystems under
study, translated from the Python source:

* `seismic_processor.py` — `EnhancedSeismicProcessor.apply_bandpass_filter`,
  `remove_spikes`, `calculate_ms_magnitude`;
* `data_manager.py` — `search_stations` (catalog dispatch and final
  selection), `_validate_stations_parallel`,
  `_fallback_station_list_optimized`.

Modelling conventions:

* Machine floats are modelled by an ordered field: `ℚ` where the claims are
  decidable, `ℝ` where `sqrt`/`log10` appear.  A possibly non-finite sample
  (NaN or ±inf) is an `Option` value, `none` standing for a non-finite float,
  so `np.isfinite` filtering is `List.filterMap id`.
* The scipy numerics (`butter`+`filtfilt`) are external library code, not
  code of this repository; they are abstracted as a function parameter of
  type `FFilt` which receives the designed filter and the cleaned samples
  and returns either filtered samples (possibly non-finite) or a raised
  `ValueError`.  Every control-flow decision of the repository itself is
  embedded faithfully.
* Thread-pool completion order in `_validate_stations_parallel` is an
  explicit list parameter: the list of probe results in completion order,
  `none` standing for a probe whose `future.result` call raised.
-/

/-! ## Filter design abstraction (`scipy.signal.butter` / `filtfilt`) -/

/-- The arguments of the `butter` call: filter kind (`"high"`, `"low"`,
`"band"`), the normalised cutoff frequencies (cutoff / nyquist; the second
is 0 for single-cutoff designs), and the order. -/
structure FilterDesign (α : Type) where
  btype : String
  w1 : α
  w2 : α
  order : ℕ

/-- Abstraction of `scipy.signal.filtfilt` applied to a designed filter:
given the design and the (finite) input samples it returns either the
filtered samples — possibly containing non-finite values, modelled as
`none` — or a raised `ValueError` (`Except.error`). -/
abbrev FFilt (α : Type) := FilterDesign α → List α → Except String (List (Option α))

/-- The status dictionary returned by `apply_bandpass_filter`, restricted to
the keys the claims are about: `success`, `reason`, `filter_type` and the
reported `low_freq` / `high_freq` parameters (as of return time, i.e. after
any clamping).  The human-readable `message` / `suggestion` strings are not
modelled. -/
structure FilterStatus (α : Type) where
  success : Bool
  reason : Option String
  filterType : Option String
  lowFreq : Option α
  highFreq : Option α
deriving DecidableEq

/-- A failure status with the given `reason` (success = False). -/
def FilterStatus.fail {α : Type} (r : String) : FilterStatus α :=
  ⟨false, some r, none, none, none⟩

/-- A success status with the given `filter_type` and reported parameters. -/
def FilterStatus.pass {α : Type} (t : String) (pl ph : Option α) : FilterStatus α :=
  ⟨true, none, some t, pl, ph⟩

/-- The ideal filter response: `filtfilt` returns its input unchanged.
Used to instantiate the `FFilt` abstraction on concrete inputs (for a pure
in-band signal this is what the real Butterworth response approximates). -/
def idealFilt {α : Type} : FFilt α := fun _ l => .ok (l.map some)

/-! ## `apply_bandpass_filter` (seismic_processor.py, lines 94–216)

The body of the big `try` is embedded branch by branch.  The final
`filtfilt` application plus output-validity check (lines 177–206) is
`runFilter`; the three `butter` branches are `highpassStep`,
`lowpassStep`, `bandpassStep`. -/

/-- Lines 177–206: apply the designed filter, failing with
`filter_error` when `filtfilt` raises a `ValueError` and with
`filter_produced_invalid` when the output contains non-finite values.
On failure the (cleaned) input samples are returned unchanged. -/
def runFilter {α : Type} [LinearOrderedField α] (filtfilt : FFilt α)
    (design : FilterDesign α) (d : List α) (ftype : String)
    (pLow pHigh : Option α) : List (Option α) × FilterStatus α :=
  match filtfilt design d with
  | .error _ => (d.map some, FilterStatus.fail "filter_error")
  | .ok filtered =>
      if filtered.any Option.isNone then
        (d.map some, FilterStatus.fail "filter_produced_invalid")
      else (filtered, FilterStatus.pass ftype pLow pHigh)

/-- Lines 124–135, the high-pass branch (taken when `low_freq` is `None` or
≤ 0).  When `high_freq` is also `None` the comparison `None >= float`
raises a `TypeError` in Python, which the outer handler turns into the
`unexpected_error` status; that is the first arm here. -/
def highpassStep {α : Type} [LinearOrderedField α] (filtfilt : FFilt α)
    (d : List α) (nyquist : α) (low_freq high_freq : Option α) (order : ℕ) :
    List (Option α) × FilterStatus α :=
  match high_freq with
  | none => (d.map some, FilterStatus.fail "unexpected_error")
  | some h =>
      if nyquist * 0.95 ≤ h then (d.map some, FilterStatus.fail "frequency_too_high")
      else runFilter filtfilt ⟨"high", h / nyquist, 0, order⟩ d "highpass" low_freq (some h)

/-- Lines 137–148, the low-pass branch (taken when `high_freq` is `None` or
≥ nyquist): low-pass at `low_freq`, failing when `low_freq` is itself too
close to Nyquist. -/
def lowpassStep {α : Type} [LinearOrderedField α] (filtfilt : FFilt α)
    (d : List α) (nyquist : α) (l : α) (high_freq : Option α) (order : ℕ) :
    List (Option α) × FilterStatus α :=
  if nyquist * 0.95 ≤ l then (d.map some, FilterStatus.fail "frequency_too_high")
  else runFilter filtfilt ⟨"low", l / nyquist, 0, order⟩ d "lowpass" (some l) high_freq

/-- Lines 150–174, the band-pass branch: fail with `invalid_band` when
`low_freq >= high_freq`; otherwise clamp `high_freq` to `0.9 * nyquist`
when it is ≥ `0.95 * nyquist`, raise `low_freq` to 0.005 when it is
≤ 0.001, and filter. -/
def bandpassStep {α : Type} [LinearOrderedField α] (filtfilt : FFilt α)
    (d : List α) (nyquist : α) (l h : α) (order : ℕ) :
    List (Option α) × FilterStatus α :=
  if h ≤ l then (d.map some, FilterStatus.fail "invalid_band")
  else
    let h2 := if nyquist * 0.95 ≤ h then nyquist * 0.9 else h
    let l2 := if l ≤ 0.001 then 0.005 else l
    runFilter filtfilt ⟨"band", l2 / nyquist, h2 / nyquist, order⟩ d "bandpass" (some l2) (some h2)

/-- `EnhancedSeismicProcessor.apply_bandpass_filter` (lines 94–216).
`data` may contain non-finite samples (`none`).  Empty data fails with
`empty_data`; data that is more than 50% non-finite fails with
`invalid_data` (returning the original array); otherwise the non-finite
samples are dropped (`data = clean_data`, line 119) and the filter branch
is chosen exactly as in the source: `low_freq` `None`/≤0 → high-pass;
`high_freq` `None`/≥nyquist → low-pass; otherwise band-pass. -/
def apply_bandpass_filter {α : Type} [LinearOrderedField α] (filtfilt : FFilt α)
    (data : List (Option α)) (sampling_rate : α) (low_freq high_freq : Option α)
    (order : ℕ) : List (Option α) × FilterStatus α :=
  if data.length = 0 then (data, FilterStatus.fail "empty_data")
  else if data.any Option.isNone ∧ 2 * (data.filterMap id).length < data.length then
    (data, FilterStatus.fail "invalid_data")
  else
    let d := data.filterMap id
    let nyquist := sampling_rate / 2
    match low_freq with
    | none => highpassStep filtfilt d nyquist low_freq high_freq order
    | some l =>
        if l ≤ 0 then highpassStep filtfilt d nyquist low_freq high_freq order
        else
          match high_freq with
          | none => lowpassStep filtfilt d nyquist l high_freq order
          | some h =>
              if nyquist ≤ h then lowpassStep filtfilt d nyquist l high_freq order
              else bandpassStep filtfilt d nyquist l h order

/-! ### Helper lemmas about the cleaning step -/

/-- Dropping the non-finite samples of a list that contains at least one
of them strictly shortens it. -/
theorem filterMap_id_length_lt {α : Type} (data : List (Option α))
    (h : data.any Option.isNone = true) :
    (data.filterMap id).length < data.length := by
  induction data with
  | nil => simp at h
  | cons x xs ih =>
    cases x with
    | none =>
        simp only [List.filterMap_cons, id, List.length_cons]
        exact Nat.lt_succ_of_le (List.length_filterMap_le id xs)
    | some a =>
        simp only [List.any_cons, Option.isNone_some, Bool.false_or] at h
        simp only [List.filterMap_cons, id, List.length_cons]
        exact Nat.succ_lt_succ (ih h)

/-- A list without non-finite samples is recovered unchanged after the
clean-and-rewrap round trip. -/
theorem filterMap_id_of_noneFree {α : Type} (data : List (Option α))
    (h : data.any Option.isNone = false) :
    (data.filterMap id).map some = data := by
  induction data with
  | nil => simp
  | cons x xs ih =>
    cases x with
    | none => simp at h
    | some a =>
        simp only [List.any_cons, Option.isNone_some, Bool.false_or] at h
        simp [List.filterMap_cons, ih h]

/-- A length-preserving `filtfilt` abstraction yields a `runFilter` output
of the same length as its input samples. -/
theorem runFilter_fst_length {α : Type} [LinearOrderedField α] (filtfilt : FFilt α)
    (hlen : ∀ fd l out, filtfilt fd l = .ok out → out.length = l.length)
    (design : FilterDesign α) (d : List α) (t : String) (pl ph : Option α) :
    (runFilter filtfilt design d t pl ph).1.length = d.length := by
  unfold runFilter
  cases hc : filtfilt design d with
  | error e => simp
  | ok out =>
      have hl := hlen design d out hc
      by_cases hno : out.any Option.isNone <;> simp [hno, hl]

/-- Same for the high-pass branch. -/
theorem highpassStep_fst_length {α : Type} [LinearOrderedField α] (filtfilt : FFilt α)
    (hlen : ∀ fd l out, filtfilt fd l = .ok out → out.length = l.length)
    (d : List α) (ny : α) (lo hi : Option α) (order : ℕ) :
    (highpassStep filtfilt d ny lo hi order).1.length = d.length := by
  cases hi with
  | none => simp [highpassStep]
  | some h =>
      simp only [highpassStep]
      split
      · simp
      · exact runFilter_fst_length filtfilt hlen _ d "highpass" lo (some h)

/-- Same for the low-pass branch. -/
theorem lowpassStep_fst_length {α : Type} [LinearOrderedField α] (filtfilt : FFilt α)
    (hlen : ∀ fd l out, filtfilt fd l = .ok out → out.length = l.length)
    (d : List α) (ny l : α) (hi : Option α) (order : ℕ) :
    (lowpassStep filtfilt d ny l hi order).1.length = d.length := by
  simp only [lowpassStep]
  split
  · simp
  · exact runFilter_fst_length filtfilt hlen _ d "lowpass" (some l) hi

/-- Same for the band-pass branch. -/
theorem bandpassStep_fst_length {α : Type} [LinearOrderedField α] (filtfilt : FFilt α)
    (hlen : ∀ fd l out, filtfilt fd l = .ok out → out.length = l.length)
    (d : List α) (ny l h : α) (order : ℕ) :
    (bandpassStep filtfilt d ny l h order).1.length = d.length := by
  simp only [bandpassStep]
  split
  · simp
  · exact runFilter_fst_length filtfilt hlen _ d "bandpass" _ _

/-- Mapping `some` over a list produces no non-finite entries. -/
theorem any_isNone_map_some {α : Type} (l : List α) : (l.map some).any Option.isNone = false := by
  simp

/-- Evaluation of `apply_bandpass_filter` on the request
`(sampling_rate = 20, low = 1, high = 11)`: because `high = 11` is at or
above the Nyquist frequency 10, the source takes the low-pass branch
(line 138) and — for well-formed data and a benign filter backend —
succeeds as a low-pass at `low = 1` Hz with unchanged reported parameters. -/
theorem bandpass_20_1_11_eval {α : Type} [LinearOrderedField α] (ff : FFilt α)
    (data : List (Option α)) (hne : data ≠ [])
    (hfin : data.any Option.isNone = false)
    (hff : ∀ fd l, ff fd l = .ok (l.map some)) :
    apply_bandpass_filter ff data 20 (some 1) (some 11) 4
      = (data, FilterStatus.pass "lowpass" (some 1) (some 11)) := by
  have hlen : ¬ data.length = 0 := by simpa [List.length_eq_zero] using hne
  have hd : (data.filterMap id).map some = data := filterMap_id_of_noneFree data hfin
  have h10 : ((20 : α) / 2) ≤ 11 := by norm_num
  have h95 : ¬ ((20 : α) / 2 * 0.95 ≤ 1) := by norm_num
  have h0 : ¬ ((1 : α) ≤ 0) := by norm_num
  simp only [apply_bandpass_filter, hfin, Bool.false_eq_true, false_and, if_false,
    if_neg hlen, if_neg h0, if_pos h10, lowpassStep, if_neg h95, runFilter, hff,
    any_isNone_map_some, Bool.false_eq_true, if_false, hd]

/-- Claim C2, counterexample.  For the request
`apply_bandpass_filter(samples, sampling_rate=20, low=1, high=11)` the code
returns success with a LOW-pass filter (cutoff kept at the reported
parameters 1 and 11), not a band-pass clamped to 9.0 Hz: with
`high = 11 ≥ Nyquist = 10` the low-pass branch of line 138 is taken, so
the claimed clamp of `high` to `0.9 × Nyquist` never happens. -/
theorem claim_C2_counterexample :
    (apply_bandpass_filter (idealFilt (α := ℚ)) [some 1, some 2, some 3] 20
        (some 1) (some 11) 4).2.success = true
    ∧ (apply_bandpass_filter (idealFilt (α := ℚ)) [some 1, some 2, some 3] 20
        (some 1) (some 11) 4).2.filterType = some "lowpass"
    ∧ ¬ ((apply_bandpass_filter (idealFilt (α := ℚ)) [some 1, some 2, some 3] 20
        (some 1) (some 11) 4).2.filterType = some "bandpass"
        ∧ (apply_bandpass_filter (idealFilt (α := ℚ)) [some 1, some 2, some 3] 20
            (some 1) (some 11) 4).2.highFreq = some 9) := by
  rw [bandpass_20_1_11_eval (idealFilt (α := ℚ)) [some 1, some 2, some 3]
    (by simp) (by rfl) (fun _ _ => rfl)]
  refine ⟨rfl, rfl, ?_⟩
  rintro ⟨h1, -⟩
  simp [FilterStatus.pass] at h1

/-- Claim C2, amended.  A request `(sampling_rate=20, low=1, high=11)` has
`high = 11` at or above the Nyquist frequency 10, so the code treats it as
a LOW-pass request at `low = 1` Hz and succeeds (for non-empty all-finite
data and a filter backend returning finite output): the returned status is
a success with filter type `lowpass` and unchanged reported parameters
`(1, 11)`.  The clamp of `high` to `0.9 × Nyquist = 9.0` applies only when
`0.95 × Nyquist ≤ high < Nyquist`, which `high = 11` does not satisfy. -/
theorem claim_C2_amended {α : Type} [LinearOrderedField α] (ff : FFilt α)
    (data : List (Option α)) (hne : data ≠ [])
    (hfin : data.any Option.isNone = false)
    (hff : ∀ fd l, ff fd l = .ok (l.map some)) :
    apply_bandpass_filter ff data 20 (some 1) (some 11) 4
      = (data, FilterStatus.pass "lowpass" (some 1) (some 11)) :=
  bandpass_20_1_11_eval ff data hne hfin hff

/-- Claim C2, witness for the amended theorem at a concrete input. -/
theorem claim_C2_witness :
    apply_bandpass_filter (idealFilt (α := ℚ)) [some 1, some 2, some 3] 20
        (some 1) (some 11) 4
      = ([some 1, some 2, some 3], FilterStatus.pass "lowpass" (some 1) (some 11)) :=
  claim_C2_amended (idealFilt (α := ℚ)) [some 1, some 2, some 3]
    (by simp) (by rfl) (fun _ _ => rfl)

/-- For an explicit band request with `0 < low` and `high ≤ low`,
`apply_bandpass_filter` never reports success, whatever the data, sampling
rate, order and filter backend: every reachable branch fails.  (When
`high ≥ nyquist` the low-pass branch is taken, but `nyquist ≤ high ≤ low`
then forces the `low ≥ 0.95 × nyquist` failure there.) -/
theorem band_low_ge_high_never_success {α : Type} [LinearOrderedField α]
    (ff : FFilt α) (data : List (Option α)) (sr l h : α) (order : ℕ)
    (hl : 0 < l) (hle : h ≤ l) :
    (apply_bandpass_filter ff data sr (some l) (some h) order).2.success = false := by
  by_cases h0 : data.length = 0
  · simp [apply_bandpass_filter, h0, FilterStatus.fail]
  · by_cases hbad : (data.any Option.isNone = true)
        ∧ 2 * (data.filterMap id).length < data.length
    · simp [apply_bandpass_filter, h0, hbad, FilterStatus.fail]
    · have hl0 : ¬ l ≤ 0 := not_le.mpr hl
      simp only [apply_bandpass_filter, if_neg h0, if_neg hbad, if_neg hl0]
      by_cases hnl : sr / 2 ≤ h
      · have h95 : sr / 2 * 0.95 ≤ l := by
          rcases le_or_lt (sr / 2) 0 with hn | hn
          · nlinarith
          · nlinarith
        simp [if_pos hnl, lowpassStep, if_pos h95, FilterStatus.fail]
      · simp [if_neg hnl, bandpassStep, if_pos hle, FilterStatus.fail]

/-- When the data checks pass and `high` is strictly below Nyquist, an
explicit band request with `0 < low` and `high ≤ low` reaches the
band-pass branch and fails with reason `invalid_band`, returning the
cleaned samples unchanged. -/
theorem band_low_ge_high_reason {α : Type} [LinearOrderedField α]
    (ff : FFilt α) (data : List (Option α)) (sr l h : α) (order : ℕ)
    (hl : 0 < l) (hle : h ≤ l) (hne : data ≠ [])
    (hok : ¬ ((data.any Option.isNone = true)
        ∧ 2 * (data.filterMap id).length < data.length))
    (hny : h < sr / 2) :
    (apply_bandpass_filter ff data sr (some l) (some h) order).2
      = FilterStatus.fail "invalid_band" := by
  have h0 : ¬ data.length = 0 := by simpa [List.length_eq_zero] using hne
  have hl0 : ¬ l ≤ 0 := not_le.mpr hl
  have hnl : ¬ sr / 2 ≤ h := not_le.mpr hny
  simp only [apply_bandpass_filter, if_neg h0, if_neg hok, if_neg hl0, if_neg hnl,
    bandpassStep, if_pos hle]

/-- Claim C3, counterexample.  An explicit band request with
`low = 12 > 0`, `high = 11 ≤ low` at sampling rate 20 does fail, but with
reason `frequency_too_high`, not `invalid_band`: because `high = 11` is at
or above Nyquist (10) the low-pass branch is taken, and `low = 12` is then
itself too close to Nyquist.  So "fails with the invalid-band reason" does
not hold for every such request. -/
theorem claim_C3_counterexample :
    (apply_bandpass_filter (idealFilt (α := ℚ)) [some 1, some 2] 20
        (some 12) (some 11) 4).2.reason = some "frequency_too_high"
    ∧ ¬ ((apply_bandpass_filter (idealFilt (α := ℚ)) [some 1, some 2] 20
        (some 12) (some 11) 4).2.reason = some "invalid_band") := by
  have h0 : ¬ ([some (1:ℚ), some 2].length = 0) := by simp
  have hbad : ¬ (([some (1:ℚ), some 2].any Option.isNone = true)
      ∧ 2 * ([some (1:ℚ), some 2].filterMap id).length < [some (1:ℚ), some 2].length) := by
    simp
  have hl0 : ¬ ((12:ℚ) ≤ 0) := by norm_num
  have hnl : (20:ℚ) / 2 ≤ 11 := by norm_num
  have h95 : (20:ℚ) / 2 * 0.95 ≤ 12 := by norm_num
  simp [apply_bandpass_filter, if_neg h0, if_neg hbad, if_neg hl0, if_pos hnl,
    lowpassStep, if_pos h95, FilterStatus.fail]

/-- Claim C3, amended.  For every explicit band request (both cutoffs
given, `0 < low`) with `low ≥ high`, `apply_bandpass_filter` never returns
a success status; furthermore it fails specifically with the
`invalid_band` reason whenever the data validation passes (non-empty, at
least half finite) and `high` is strictly below Nyquist, so that the
band-pass branch is actually reached.  (Otherwise the failure reason is
`empty_data`, `invalid_data` or — when `high ≥ Nyquist` routes the request
to the low-pass branch — `frequency_too_high`.) -/
theorem claim_C3_amended {α : Type} [LinearOrderedField α] :
    (∀ (ff : FFilt α) (data : List (Option α)) (sr l h : α) (order : ℕ),
       0 < l → h ≤ l →
       (apply_bandpass_filter ff data sr (some l) (some h) order).2.success = false)
    ∧ (∀ (ff : FFilt α) (data : List (Option α)) (sr l h : α) (order : ℕ),
       0 < l → h ≤ l → data ≠ [] →
       ¬ ((data.any Option.isNone = true)
           ∧ 2 * (data.filterMap id).length < data.length) →
       h < sr / 2 →
       (apply_bandpass_filter ff data sr (some l) (some h) order).2
         = FilterStatus.fail "invalid_band") :=
  ⟨fun ff data sr l h order hl hle =>
      band_low_ge_high_never_success ff data sr l h order hl hle,
   fun ff data sr l h order hl hle hne hok hny =>
      band_low_ge_high_reason ff data sr l h order hl hle hne hok hny⟩

/-- Claim C3, witness: both parts of the amended theorem instantiated at
concrete inputs. -/
theorem claim_C3_witness :
    (apply_bandpass_filter (idealFilt (α := ℚ)) [some 1, some 2] 20
        (some 12) (some 11) 4).2.success = false
    ∧ (apply_bandpass_filter (idealFilt (α := ℚ)) [some 1, some 2] 20
        (some 3) (some 2) 4).2 = FilterStatus.fail "invalid_band" :=
  ⟨(claim_C3_amended (α := ℚ)).1 idealFilt [some 1, some 2] 20 12 11 4
      (by norm_num) (by norm_num),
   (claim_C3_amended (α := ℚ)).2 idealFilt [some 1, some 2] 20 3 2 4
      (by norm_num) (by norm_num) (by simp) (by simp) (by norm_num)⟩

/-- Claim C10.  When a non-empty input to `apply_bandpass_filter` contains
non-finite samples but at least 50% of the samples are finite, the
non-finite samples are silently dropped before filtering (line 119), so
for every length-preserving filter backend the returned sample sequence —
whether a filtered result or the cleaned samples echoed by a failure
branch — is strictly shorter than the input: the call does not preserve
the sample count. -/
theorem claim_C10 {α : Type} [LinearOrderedField α] (ff : FFilt α)
    (hlen : ∀ fd l out, ff fd l = .ok out → out.length = l.length)
    (data : List (Option α)) (sr : α) (low high : Option α) (order : ℕ)
    (hne : data ≠ []) (hbad : data.any Option.isNone = true)
    (hhalf : data.length ≤ 2 * (data.filterMap id).length) :
    (apply_bandpass_filter ff data sr low high order).1.length < data.length := by
  have h0 : ¬ data.length = 0 := by simpa [List.length_eq_zero] using hne
  have hok : ¬ ((data.any Option.isNone = true)
      ∧ 2 * (data.filterMap id).length < data.length) := by
    rintro ⟨-, hlt⟩
    exact absurd hhalf (not_le.mpr hlt)
  have hshort : (data.filterMap id).length < data.length :=
    filterMap_id_length_lt data hbad
  cases low with
  | none =>
      simp only [apply_bandpass_filter, if_neg h0, if_neg hok]
      rw [highpassStep_fst_length ff hlen]
      exact hshort
  | some l =>
      cases high with
      | none =>
          simp only [apply_bandpass_filter, if_neg h0, if_neg hok]
          by_cases hl0 : l ≤ 0
          · rw [if_pos hl0, highpassStep_fst_length ff hlen]
            exact hshort
          · rw [if_neg hl0, lowpassStep_fst_length ff hlen]
            exact hshort
      | some h =>
          simp only [apply_bandpass_filter, if_neg h0, if_neg hok]
          by_cases hl0 : l ≤ 0
          · rw [if_pos hl0, highpassStep_fst_length ff hlen]
            exact hshort
          · rw [if_neg hl0]
            by_cases hny : sr / 2 ≤ h
            · rw [if_pos hny, lowpassStep_fst_length ff hlen]
              exact hshort
            · rw [if_neg hny, bandpassStep_fst_length ff hlen]
              exact hshort

/-- Claim C10, witness: a 4-sample input with one non-finite sample comes
back with 3 samples. -/
theorem claim_C10_witness :
    (apply_bandpass_filter (idealFilt (α := ℚ)) [some 1, none, some 2, some 3] 20
        (some 1) (some 5) 4).1.length < [some (1:ℚ), none, some 2, some 3].length :=
  claim_C10 (idealFilt (α := ℚ))
    (fun fd l out h => by
      injection h with h1
      rw [← h1]
      simp)
    [some 1, none, some 2, some 3] 20 (some 1) (some 5) 4
    (by simp) (by simp) (by simp)

/-! ## Station discovery (data_manager.py)

A candidate station is reduced to the fields the claims are about: an
identifier (`network.station`), the epicentral distance in km, and the
`data_verified` flag (`None` unknown / `False` unavailable /
`True` verified). -/

/-- A station record as handled by `search_stations` and
`_validate_stations_parallel`, restricted to the claim-relevant fields. -/
structure Sta where
  name : String
  distance_km : ℚ
  dataVerified : Option Bool
deriving DecidableEq

/-- The first component of the Python sort key
`(not x.get('data_verified', False), x['distance_km'])`: 0 for a verified
station, 1 for unknown (`None`) or unavailable (`False`). -/
def rankOf (s : Sta) : ℕ := if s.dataVerified = some true then 0 else 1

/-- The sort key order of line 706: verified stations first, then
ascending distance. -/
def keyLe (a b : Sta) : Prop :=
  rankOf a < rankOf b ∨ (rankOf a = rankOf b ∧ a.distance_km ≤ b.distance_km)

instance keyLe.dec : DecidableRel keyLe := fun a b => by
  unfold keyLe
  infer_instance

/-- `keyLe` as a Boolean comparator. -/
def keyLeB (a b : Sta) : Bool := decide (keyLe a b)

/-- Insertion step of the insertion sort used to model Python
`list.sort(key=...)` (any comparison sort gives the same ordering
guarantees). -/
def insertLe (le : Sta → Sta → Bool) (x : Sta) : List Sta → List Sta
  | [] => [x]
  | y :: ys => if le x y then x :: y :: ys else y :: insertLe le x ys

/-- Insertion sort by a Boolean comparator. -/
def sortLe (le : Sta → Sta → Bool) : List Sta → List Sta
  | [] => []
  | x :: xs => insertLe le x (sortLe le xs)

/-- Line 706: `validated.sort(key=lambda x: (not x.get('data_verified',
False), x['distance_km']))`. -/
def sortStations : List Sta → List Sta := sortLe keyLeB

/-- Line 766: `stations.sort(key=lambda x: x['distance_km'])`. -/
def sortByDistance : List Sta → List Sta :=
  sortLe (fun a b => decide (a.distance_km ≤ b.distance_km))

theorem mem_insertLe (le : Sta → Sta → Bool) (x a : Sta) :
    ∀ l : List Sta, a ∈ insertLe le x l ↔ a = x ∨ a ∈ l := by
  intro l
  induction l with
  | nil => simp [insertLe]
  | cons y ys ih =>
      by_cases h : le x y
      · simp [insertLe, h]
      · simp only [insertLe, if_neg h, List.mem_cons, ih]
        tauto

/-- Inserting into a list sorted by a total transitive comparator keeps it
sorted. -/
theorem pairwise_insertLe (le : Sta → Sta → Bool)
    (htot : ∀ a b, le a b = true ∨ le b a = true)
    (htrans : ∀ a b c, le a b = true → le b c = true → le a c = true)
    (x : Sta) :
    ∀ l : List Sta, l.Pairwise (fun a b => le a b = true) →
      (insertLe le x l).Pairwise (fun a b => le a b = true) := by
  intro l
  induction l with
  | nil => simp [insertLe]
  | cons y ys ih =>
      intro hp
      rw [List.pairwise_cons] at hp
      obtain ⟨hy, hys⟩ := hp
      by_cases h : le x y
      · rw [insertLe, if_pos h, List.pairwise_cons]
        refine ⟨?_, List.pairwise_cons.mpr ⟨hy, hys⟩⟩
        intro b hb
        rcases List.mem_cons.mp hb with rfl | hb
        · exact h
        · exact htrans x y b h (hy b hb)
      · rw [insertLe, if_neg h, List.pairwise_cons]
        refine ⟨?_, ih hys⟩
        intro b hb
        rcases (mem_insertLe le x b ys).mp hb with rfl | hb
        · rcases htot b y with hby | hyb
          · exact absurd hby (by simpa using h)
          · exact hyb
        · exact hy b hb

/-- Insertion sort by a total transitive comparator sorts. -/
theorem pairwise_sortLe (le : Sta → Sta → Bool)
    (htot : ∀ a b, le a b = true ∨ le b a = true)
    (htrans : ∀ a b c, le a b = true → le b c = true → le a c = true) :
    ∀ l : List Sta, (sortLe le l).Pairwise (fun a b => le a b = true) := by
  intro l
  induction l with
  | nil => simp [sortLe]
  | cons x xs ih => exact pairwise_insertLe le htot htrans x (sortLe le xs) ih

theorem length_insertLe (le : Sta → Sta → Bool) (x : Sta) :
    ∀ l : List Sta, (insertLe le x l).length = l.length + 1 := by
  intro l
  induction l with
  | nil => simp [insertLe]
  | cons y ys ih =>
      by_cases h : le x y
      · simp [insertLe, h]
      · simp [insertLe, h, ih]

theorem length_sortLe (le : Sta → Sta → Bool) :
    ∀ l : List Sta, (sortLe le l).length = l.length := by
  intro l
  induction l with
  | nil => rfl
  | cons x xs ih => simp [sortLe, length_insertLe, ih]

theorem keyLeB_total (a b : Sta) : keyLeB a b = true ∨ keyLeB b a = true := by
  simp only [keyLeB, decide_eq_true_eq, keyLe]
  rcases lt_trichotomy (rankOf a) (rankOf b) with h | h | h
  · exact Or.inl (Or.inl h)
  · rcases le_total a.distance_km b.distance_km with hd | hd
    · exact Or.inl (Or.inr ⟨h, hd⟩)
    · exact Or.inr (Or.inr ⟨h.symm, hd⟩)
  · exact Or.inr (Or.inl h)

theorem keyLeB_trans (a b c : Sta) (hab : keyLeB a b = true) (hbc : keyLeB b c = true) :
    keyLeB a c = true := by
  simp only [keyLeB, decide_eq_true_eq, keyLe] at hab hbc ⊢
  rcases hab with h1 | ⟨h1, d1⟩ <;> rcases hbc with h2 | ⟨h2, d2⟩
  · exact Or.inl (h1.trans h2)
  · exact Or.inl (h2 ▸ h1)
  · exact Or.inl (h1 ▸ h2)
  · exact Or.inr ⟨h1.trans h2, d1.trans d2⟩

/-! ## `_validate_stations_parallel` (data_manager.py, lines 630–708)

The thread pool submits one probe per station; `as_completed` yields the
probe results in completion order.  That order is the `completions` list
parameter below: `some s` is a probe whose `future.result(timeout=5)`
returned the station `s` (with `data_verified` set by `validate_single`),
`none` is a probe whose `result` call raised (swallowed by the bare
`except: pass`).  The collection loop checks the early-stop condition
`verified_count >= target_count * 2` BEFORE consuming each next result
and breaks there (lines 683–686). -/

/-- The collection loop of lines 683–703: `verified` is
`verified_count`, `acc` is `validated`. -/
def collectLoop (target_count : ℕ) : ℕ → List Sta → List (Option Sta) → List Sta
  | _, acc, [] => acc
  | verified, acc, r :: rs =>
      if target_count * 2 ≤ verified then acc
      else
        match r with
        | none => collectLoop target_count verified acc rs
        | some s =>
            collectLoop target_count
              (verified + if s.dataVerified = some true then 1 else 0)
              (acc ++ [s]) rs

/-- `_validate_stations_parallel`: collect results in completion order with
early stop, then sort verified-first by ascending distance (line 706). -/
def validate_stations_parallel (target_count : ℕ) (completions : List (Option Sta)) :
    List Sta :=
  sortStations (collectLoop target_count 0 [] completions)

/-- Whether a completed probe counts towards `verified_count`. -/
def probeVerified (r : Option Sta) : Bool :=
  match r with
  | some s => s.dataVerified = some true
  | none => false

/-- Number of verified-available results in a completion prefix. -/
def countVerified (l : List (Option Sta)) : ℕ := (l.filter probeVerified).length

/-- Once the verified counter has reached the threshold within a prefix of
the completion order, the collection loop never looks at the rest. -/
theorem collectLoop_append (t : ℕ) :
    ∀ (pre rest : List (Option Sta)) (v : ℕ) (acc : List Sta),
      t * 2 ≤ v + countVerified pre →
      collectLoop t v acc (pre ++ rest) = collectLoop t v acc pre := by
  intro pre
  induction pre with
  | nil =>
      intro rest v acc h
      simp only [countVerified, List.filter_nil, List.length_nil, Nat.add_zero] at h
      cases rest with
      | nil => rfl
      | cons r rs => simp [collectLoop, if_pos h]
  | cons p ps ih =>
      intro rest v acc h
      by_cases hstop : t * 2 ≤ v
      · simp [collectLoop, if_pos hstop]
      · cases p with
        | none =>
            simp only [List.cons_append, collectLoop, if_neg hstop]
            exact ih rest v acc (by simpa [countVerified, probeVerified] using h)
        | some s =>
            simp only [List.cons_append, collectLoop, if_neg hstop]
            apply ih
            by_cases hv : s.dataVerified = some true
            · have : countVerified (some s :: ps) = 1 + countVerified ps := by
                simp [countVerified, probeVerified, hv, Nat.add_comm]
              rw [this] at h
              simp [hv]
              omega
            · have : countVerified (some s :: ps) = countVerified ps := by
                simp [countVerified, probeVerified, hv]
              rw [this] at h
              simpa [hv] using h

/-- Claim C5.  In the parallel verification step, once the consumed prefix
of the completion order contains `2 × target_count` verified-available
results, no later probe result is consumed or required: the returned list
is the same whatever completes afterwards. -/
theorem claim_C5 (target_count : ℕ) (pre rest : List (Option Sta))
    (h : target_count * 2 ≤ countVerified pre) :
    validate_stations_parallel target_count (pre ++ rest)
      = validate_stations_parallel target_count pre := by
  unfold validate_stations_parallel
  rw [collectLoop_append target_count pre rest 0 [] (by simpa using h)]

/-- Claim C5, witness: with `target_count = 1`, two verified completions
make the result independent of a third completion. -/
theorem claim_C5_witness :
    validate_stations_parallel 1
        ([some ⟨"IU.A", 100, some true⟩, some ⟨"IU.B", 200, some true⟩]
          ++ [some ⟨"IU.C", 50, some true⟩])
      = validate_stations_parallel 1
          [some ⟨"IU.A", 100, some true⟩, some ⟨"IU.B", 200, some true⟩] :=
  claim_C5 1 [some ⟨"IU.A", 100, some true⟩, some ⟨"IU.B", 200, some true⟩]
    [some ⟨"IU.C", 50, some true⟩] (by rfl)

/-! ## Final selection in `search_stations` (data_manager.py, lines 348–377)

Given the de-clustered `selected_stations` and the completion order of the
validation probes, the source either validates all of them (≤ 20) or only
a quick prefix of `min(target_stations * 3, 15)`, appending the rest
unvalidated (with `data_verified = None`) AFTER the sorted validated
list; the final list is `validated_stations[:target_stations]`. -/

/-- Lines 348–377 of `search_stations`: validation stage plus final
truncation, as a function of the de-clustered candidate list and of the
probe completion order. -/
def finalizeStations (selected : List Sta) (completions : List (Option Sta))
    (target_stations : ℕ) : List Sta :=
  if selected.length ≤ 20 then
    (validate_stations_parallel target_stations completions).take target_stations
  else
    let quickCount := min (target_stations * 3) 15
    let validated := validate_stations_parallel target_stations completions
    let remaining := (selected.drop quickCount).map
      (fun s => { s with dataVerified := (none : Option Bool) })
    (validated ++ remaining).take target_stations

/-- The ordering asserted by the spec: verified-available stations first in
ascending distance, then unknown/unverified stations in ascending
distance — i.e. the list is sorted by the key `(rank, distance)`. -/
def orderedPerSpec (l : List Sta) : Prop := l.Pairwise keyLe

instance orderedPerSpec.dec (l : List Sta) : Decidable (orderedPerSpec l) := by
  unfold orderedPerSpec
  infer_instance

/-- The 21 de-clustered candidates of the C6 counterexample: the 15
quick-validated ones sit at 100–114 km, the 6 appended unvalidated ones at
25–30 km.  (A selected list longer than 20 is reachable, since
`_select_distributed_stations` is called with `target_stations * 2` and
returns up to that many: any `target_stations ≥ 11` allows 21.) -/
def sel21 : List Sta :=
  [⟨"s01", 100, some false⟩, ⟨"s02", 101, some false⟩, ⟨"s03", 102, some false⟩,
   ⟨"s04", 103, some false⟩, ⟨"s05", 104, some false⟩, ⟨"s06", 105, some false⟩,
   ⟨"s07", 106, some false⟩, ⟨"s08", 107, some false⟩, ⟨"s09", 108, some false⟩,
   ⟨"s10", 109, some false⟩, ⟨"s11", 110, some false⟩, ⟨"s12", 111, some false⟩,
   ⟨"s13", 112, some false⟩, ⟨"s14", 113, some false⟩, ⟨"s15", 114, some false⟩,
   ⟨"s16", 25, some false⟩, ⟨"s17", 26, some false⟩, ⟨"s18", 27, some false⟩,
   ⟨"s19", 28, some false⟩, ⟨"s20", 29, some false⟩, ⟨"s21", 30, some false⟩]

/-- Completion order of the 15 quick probes for the C6 counterexample:
every probe completes, each as unavailable.  This is the shape of every
real run: `validate_single` catches all exceptions and always returns its
station with `data_verified` set, and `as_completed` yields only completed
futures, so `future.result(timeout=5)` never raises and all 15 results are
consumed (the early break would need `2 × target_count` verified results
among 15, unreachable for the targets that make the quick branch fire). -/
def comps21 : List (Option Sta) :=
  [some ⟨"s01", 100, some false⟩, some ⟨"s02", 101, some false⟩,
   some ⟨"s03", 102, some false⟩, some ⟨"s04", 103, some false⟩,
   some ⟨"s05", 104, some false⟩, some ⟨"s06", 105, some false⟩,
   some ⟨"s07", 106, some false⟩, some ⟨"s08", 107, some false⟩,
   some ⟨"s09", 108, some false⟩, some ⟨"s10", 109, some false⟩,
   some ⟨"s11", 110, some false⟩, some ⟨"s12", 111, some false⟩,
   some ⟨"s13", 112, some false⟩, some ⟨"s14", 113, some false⟩,
   some ⟨"s15", 114, some false⟩]

/-- Claim C6, counterexample.  A successful discovery run through the
quick-validation branch — 21 selected candidates, `target_stations = 16`
(so `quick_validate_count = min(48, 15) = 15`), all 15 probes completing
as unavailable — returns a list that is NOT ordered verified-first
ascending-distance: the 15 sorted validated stations (100–114 km,
unavailable) are followed by an appended unvalidated station at 25 km, so
two non-verified entries appear with descending distances.  The truncation
`validated_stations[:16]` reaches past the 15 sorted entries into the
unsorted appended remainder, which is what breaks the ordering. -/
theorem claim_C6_counterexample :
    ¬ orderedPerSpec (finalizeStations sel21 comps21 16) := by
  decide

/-- Claim C6, amended.  The returned list is always truncated to at most
`target_stations` entries; and whenever ALL selected candidates go through
validation (the `len(selected_stations) <= 20` branch) it is ordered with
verified-available stations first in ascending distance followed by
unknown/unverified stations in ascending distance.  In the quick-validation
branch (more than 20 selected) the unvalidated remainder is appended after
the sorted validated prefix without re-sorting, so the ordering breaks as
soon as the truncation reaches the appended part (realizable from
`target_stations = 16` on, since at most 15 stations are quick-validated). -/
theorem claim_C6_amended :
    (∀ (selected : List Sta) (comps : List (Option Sta)) (t : ℕ),
       (finalizeStations selected comps t).length ≤ t)
    ∧ (∀ (selected : List Sta) (comps : List (Option Sta)) (t : ℕ),
       selected.length ≤ 20 → orderedPerSpec (finalizeStations selected comps t)) := by
  constructor
  · intro selected comps t
    unfold finalizeStations
    split
    · exact List.length_take_le t _
    · exact List.length_take_le t _
  · intro selected comps t hle
    unfold finalizeStations
    rw [if_pos hle]
    unfold orderedPerSpec
    have hs : (sortStations (collectLoop t 0 [] comps)).Pairwise
        (fun a b => keyLeB a b = true) :=
      pairwise_sortLe keyLeB keyLeB_total keyLeB_trans _
    have hs2 : (validate_stations_parallel t comps).Pairwise keyLe := by
      refine List.Pairwise.imp ?_ hs
      intro a b hab
      simpa [keyLeB] using hab
    exact hs2.sublist (List.take_sublist _ _)

/-- Claim C6, witness: the truncation bound at the counterexample input,
and the ordering on a full-validation run. -/
theorem claim_C6_witness :
    (finalizeStations sel21 comps21 11).length ≤ 11
    ∧ orderedPerSpec (finalizeStations (sel21.take 15) comps21 3) :=
  ⟨claim_C6_amended.1 sel21 comps21 11,
   claim_C6_amended.2 (sel21.take 15) comps21 3 (by decide)⟩

/-! ## Catalog dispatch and static fallback (data_manager.py)

`search_stations` wraps its whole body in one `try`; a raised catalog
query (or any later exception) lands in the handler of lines 396–401,
which returns `[]` (its own placeholder use is guarded by
`if progress_placeholder:`).  The zero-stations path of lines 316–320
first calls `progress_placeholder.warning(...)` UNGUARDED: when
`progress_placeholder` is `None` — its default, and the repository's only
call site (GEOSeis2_0.py line 1218) passes no placeholder — that call
raises `AttributeError`, lands in the same outer handler, and the
function returns `[]` without ever reaching the static fallback.  Only
with a truthy placeholder supplied does the zero-stations path return
`_fallback_station_list_optimized` (lines 710–767).  The Boolean
`progress_placeholder` parameter below models the truthiness of the
argument.  The geodesic distance of each hardcoded station to the
earthquake (`gps2dist_azimuth`, external obspy code) is abstracted as the
`dist` parameter; the per-station arrival-time fields (`distance_km/8`
etc.) and the rounding of the stored distance are not modelled, as no
claim mentions them. -/

/-- The hardcoded `analysis_ready_stations` of lines 719–727. -/
def analysisReadyStations : List String :=
  ["IU.KEV", "II.BFO", "GE.STU", "DK.BSD", "DK.COP", "NS.BSEG", "UP.UDD"]

/-- The distance-filtered static list (lines 729–763): keep the hardcoded
stations whose distance lies in `[min_distance_km, max_distance_km]`, with
`data_verified = None`. -/
def fallbackFiltered (dist : String → ℚ) (min_distance_km max_distance_km : ℚ) :
    List Sta :=
  analysisReadyStations.filterMap (fun nm =>
    if min_distance_km ≤ dist nm ∧ dist nm ≤ max_distance_km then
      some ⟨nm, dist nm, none⟩
    else none)

/-- `_fallback_station_list_optimized` (lines 710–767): filter the
hardcoded list by distance, sort by distance, truncate to
`target_stations`. -/
def fallback_station_list_optimized (dist : String → ℚ)
    (min_distance_km max_distance_km : ℚ) (target_stations : ℕ) : List Sta :=
  (sortByDistance (fallbackFiltered dist min_distance_km max_distance_km)).take
    target_stations

/-- The catalog-facing dispatch of `search_stations` (lines 279–320 and
396–401).  `processed` is the outcome of the external query plus
`_process_inventory_to_stations`: `.error` when anything up to that point
in the `try` raised, `.ok` with the processed station list otherwise.  On
the zero-stations path, the unguarded `progress_placeholder.warning` call
of line 317 raises `AttributeError` under a `None` placeholder
(`progress_placeholder = false` here), which the outer handler turns into
`[]`; with a truthy placeholder the static fallback is returned.  The rest
of the pipeline (de-clustering, validation, final selection) is the
continuation `cont`. -/
def search_stations (processed : Except Unit (List Sta))
    (cont : List Sta → List Sta) (dist : String → ℚ)
    (min_distance_km max_distance_km : ℚ) (target_stations : ℕ)
    (progress_placeholder : Bool) : List Sta :=
  match processed with
  | .error _ => []
  | .ok allStations =>
      if allStations.isEmpty then
        if progress_placeholder then
          fallback_station_list_optimized dist min_distance_km max_distance_km
            target_stations
        else []
      else cont allStations

/-- Claim C4, counterexample.  In the repository's only call
configuration (no progress placeholder, so `progress_placeholder` is
`None`): when the external catalog query raises, the outer handler
returns `[]` directly; and when the query completes with zero usable
stations, line 317's unguarded `progress_placeholder.warning` call raises
`AttributeError` and the outer handler again returns `[]`.  In both cases
the static fallback list (filtered to the same distance window) is
non-empty yet never consulted — contradicting the claim that discovery
falls back to it and returns empty only when it too is empty. -/
theorem claim_C4_counterexample :
    search_stations (.error ()) id (fun _ => 1000) 0 5000 3 false = []
    ∧ search_stations (.ok []) id (fun _ => 1000) 0 5000 3 false = []
    ∧ fallback_station_list_optimized (fun _ => 1000) 0 5000 3 ≠ [] := by
  refine ⟨rfl, rfl, ?_⟩
  decide

/-- Claim C4, amended.  When the catalog query raises, discovery returns
`[]` without consulting the static fallback.  When the query completes
with zero usable stations, the outcome depends on the progress
placeholder: under the default `None` placeholder — the repository's only
call configuration — the unguarded `.warning` call of line 317 raises
`AttributeError` and the outer handler returns `[]`, so the fallback is
again not consulted; only when a truthy placeholder is supplied does
discovery fall back to the static reliable-station list filtered to
`[min_distance_km, max_distance_km]`, returning empty exactly when that
filtered list is empty (for a positive target count).  In every case the
operation ends without a hard failure. -/
theorem claim_C4_amended :
    (∀ (cont : List Sta → List Sta) (dist : String → ℚ) (minD maxD : ℚ) (t : ℕ)
       (ph : Bool),
       search_stations (.error ()) cont dist minD maxD t ph = [])
    ∧ (∀ (cont : List Sta → List Sta) (dist : String → ℚ) (minD maxD : ℚ) (t : ℕ),
       search_stations (.ok []) cont dist minD maxD t false = [])
    ∧ (∀ (cont : List Sta → List Sta) (dist : String → ℚ) (minD maxD : ℚ) (t : ℕ),
       search_stations (.ok []) cont dist minD maxD t true
         = fallback_station_list_optimized dist minD maxD t)
    ∧ (∀ (cont : List Sta → List Sta) (dist : String → ℚ) (minD maxD : ℚ) (t : ℕ),
       0 < t →
       (search_stations (.ok []) cont dist minD maxD t true = []
         ↔ fallbackFiltered dist minD maxD = [])) := by
  refine ⟨fun cont dist minD maxD t ph => rfl, fun cont dist minD maxD t => rfl,
    fun cont dist minD maxD t => rfl, ?_⟩
  intro cont dist minD maxD t ht
  show fallback_station_list_optimized dist minD maxD t = [] ↔ _
  unfold fallback_station_list_optimized
  rw [List.take_eq_nil_iff]
  constructor
  · rintro (h0 | hnil)
    · omega
    · have hlen := length_sortLe (fun a b => decide (a.distance_km ≤ b.distance_km))
        (fallbackFiltered dist minD maxD)
      rw [show sortLe (fun a b => decide (a.distance_km ≤ b.distance_km))
            (fallbackFiltered dist minD maxD)
          = sortByDistance (fallbackFiltered dist minD maxD) from rfl, hnil] at hlen
      exact List.length_eq_zero.mp hlen.symm
  · intro h
    right
    unfold sortByDistance
    rw [h]
    rfl

/-- Claim C4, witness: the amended theorem instantiated with a constant
1000 km distance function and window `[0, 5000]`, in both placeholder
configurations. -/
theorem claim_C4_witness :
    search_stations (.error ()) id (fun _ => (1000:ℚ)) 0 5000 3 false = []
    ∧ search_stations (.ok []) id (fun _ => (1000:ℚ)) 0 5000 3 false = []
    ∧ search_stations (.ok []) id (fun _ => (1000:ℚ)) 0 5000 3 true
        = fallback_station_list_optimized (fun _ => (1000:ℚ)) 0 5000 3
    ∧ (search_stations (.ok []) id (fun _ => (1000:ℚ)) 0 5000 3 true = []
        ↔ fallbackFiltered (fun _ => (1000:ℚ)) 0 5000 = []) :=
  ⟨claim_C4_amended.1 id (fun _ => 1000) 0 5000 3 false,
   claim_C4_amended.2.1 id (fun _ => 1000) 0 5000 3,
   claim_C4_amended.2.2.1 id (fun _ => 1000) 0 5000 3,
   claim_C4_amended.2.2.2 id (fun _ => 1000) 0 5000 3 (by norm_num)⟩

/-! ## `remove_spikes` (seismic_processor.py, lines 375–400)

Robust spike removal: compute median and MAD, flag samples whose robust
z-score exceeds the threshold, and replace them by the value of a
5-sample median filter (`scipy.signal.medfilt`, which zero-pads at the
edges).  All arithmetic is exact rational arithmetic here; `1.4826` is the
exact decimal constant of line 389. -/

/-- Insertion step for sorting rational samples. -/
def insertRat (x : ℚ) : List ℚ → List ℚ
  | [] => [x]
  | y :: ys => if x ≤ y then x :: y :: ys else y :: insertRat x ys

/-- Sorting of rational samples (used to take medians). -/
def sortRat : List ℚ → List ℚ
  | [] => []
  | x :: xs => insertRat x (sortRat xs)

/-- `np.median`: middle element of the sorted data for odd length, mean of
the two middle elements for even length.  (`np.median` of an empty array
is NaN; the 0 returned here only matters for empty input, where
`remove_spikes` then takes the `mad > 0 = False` branch either way.) -/
def npMedian (l : List ℚ) : ℚ :=
  let s := sortRat l
  if s.length = 0 then 0
  else if s.length % 2 = 1 then s.getD (s.length / 2) 0
  else (s.getD (s.length / 2 - 1) 0 + s.getD (s.length / 2) 0) / 2

/-- Sliding median of width 5 over an already padded list. -/
def slideMedian5 : List ℚ → List ℚ
  | a :: b :: c :: d :: e :: rest =>
      npMedian [a, b, c, d, e] :: slideMedian5 (b :: c :: d :: e :: rest)
  | _ => []

/-- `scipy.signal.medfilt(data, 5)`: the median of the centred 5-sample
window around each index, zero-padded at the edges (two zeros on each
side), written as a sliding window. -/
def medfilt5 (l : List ℚ) : List ℚ := slideMedian5 (0 :: 0 :: (l ++ [0, 0]))

/-- Whether a sample is flagged as a spike: robust z-score
`|x − median| / (1.4826 · mad)` strictly above the threshold (line 389). -/
def isSpike (median mad threshold x : ℚ) : Bool :=
  decide (threshold < |x - median| / (1.4826 * mad))

/-- `EnhancedSeismicProcessor.remove_spikes` (lines 375–400): when
`mad > 0`, replace each flagged sample by the median-filtered value at its
index (the flag depends only on the sample value, so the index-based
assignment of line 396 is the pointwise `zipWith` below) and report the
number of flagged samples; otherwise return the data unchanged with count
0. -/
def remove_spikes (data : List ℚ) (threshold : ℚ) : List ℚ × ℕ :=
  let median := npMedian data
  let mad := npMedian (data.map fun x => |x - median|)
  if 0 < mad then
    (List.zipWith (fun x m => if isSpike median mad threshold x then m else x)
        data (medfilt5 data),
     data.countP (isSpike median mad threshold))
  else (data, 0)

/-- The C9 failing input: a ±1 background with three adjacent spikes of
height 100. -/
def spikeData : List ℚ := [0, 1, 0, 1, 0, 1, 100, 100, 100, 1, 0, 1, 0, 1, 0]


/-- Median of the C9 failing input: the sorted data has six 0s, six 1s and
three 100s, so the middle element is 1. -/
theorem med_spike : npMedian spikeData = 1 := by
  norm_num [npMedian, sortRat, insertRat, spikeData]

/-- Absolute deviations from the median 1 of the C9 failing input. -/
theorem devs_spike :
    spikeData.map (fun x => |x - 1|) = [1, 0, 1, 0, 1, 0, 99, 99, 99, 0, 1, 0, 1, 0, 1] := by
  norm_num [spikeData]

/-- MAD of the C9 failing input: the sorted deviations have a 1 in the
middle. -/
theorem mad_spike : npMedian [1, 0, 1, 0, 1, 0, 99, 99, 99, 0, 1, 0, 1, 0, 1] = 1 := by
  norm_num [npMedian, sortRat, insertRat]

set_option maxHeartbeats 2000000 in
/-- Median filter of the C9 failing input: each 5-sample window centred on
one of the three adjacent spikes contains three values 100, so its median
is the spike value 100 itself. -/
theorem mf_spike :
    medfilt5 spikeData = [0, 0, 0, 1, 1, 1, 100, 100, 100, 1, 1, 1, 0, 0, 0] := by
  norm_num [medfilt5, slideMedian5, npMedian, sortRat, insertRat, spikeData]

/-- First pass of `remove_spikes` on `spikeData` with the default
threshold 5: the three samples of value 100 are flagged (median 1, MAD 1,
z-score 99/1.4826 ≈ 66.8 > 5), but the median-filter replacement of each
is 100 itself, so the data comes back unchanged with 3 spikes reported. -/
theorem remove_spikes_spikeData : remove_spikes spikeData 5 = (spikeData, 3) := by
  rw [remove_spikes]
  rw [med_spike, devs_spike, mad_spike]
  rw [if_pos (by norm_num : (0:ℚ) < 1)]
  rw [mf_spike]
  norm_num [isSpike, spikeData]

/-- Claim C9, code bug.  `remove_spikes` is not idempotent in spike count:
on `spikeData` (a ±1 background with three adjacent spikes of height 100)
the first pass reports 3 spikes but replaces each by its own value — the
5-sample median around three adjacent equal spikes is the spike value — so
a second pass on the cleaned output with the same threshold reports the
same 3 spikes instead of the claimed 0. -/
theorem claim_C9_bug :
    remove_spikes spikeData 5 = (spikeData, 3)
    ∧ (remove_spikes (remove_spikes spikeData 5).1 5).2 = 3 := by
  refine ⟨remove_spikes_spikeData, ?_⟩
  rw [remove_spikes_spikeData, remove_spikes_spikeData]

/-! ## `calculate_ms_magnitude` (seismic_processor.py, lines 402–534)

The magnitude arithmetic lives in `ℝ` (`np.log10` is `Real.logb 10`,
`np.sqrt` is `Real.sqrt`), so the definitions of this section are
noncomputable; evaluation on concrete inputs happens through lemmas.

The module `seismic_processor.py` imports numpy/scipy/plotly but NOT
`traceback` at module scope (other methods import it locally inside their
own bodies, which binds a function-local name only).  The `except` handler
of lines 529–534 therefore raises `NameError` on its
`traceback.format_exc()` call whenever the `try` body raises — e.g. when
`np.max` is applied to an empty filtered array, or when the horizontal
combination of two arrays of different lengths raises a broadcast
`ValueError` (the numpy special case of broadcasting a length-1 array is
not modelled).  Those paths are the `uncaught "NameError"` outcome below.
A NaN sample surviving into the arithmetic does not raise: it propagates
through `np.max`, the formula and `round`, making the function return a
NaN magnitude — the `nanResult` outcome. -/

/-- Possible outcomes of `calculate_ms_magnitude`: a numeric magnitude
with its explanation text, a `(None, error-dict)` validation failure, a
returned NaN magnitude, or an exception escaping the function. -/
inductive MsOutcome where
  | ok (ms : ℝ)
  | err (tag : String)
  | nanResult
  | uncaught (exn : String)

/-- Python `round(x, 1)` (line 495): round `x` to one decimal.  (Mathlib
`round` resolves exact ties upward while Python rounds ties to even; ties
play no role in any claim here.) -/
noncomputable def round1 (x : ℝ) : ℝ := ((round (x * 10) : ℤ) : ℝ) / 10

/-- `np.max` over a possibly empty array: `none` models the `ValueError`
raised on an empty array. -/
noncomputable def npMax : List ℝ → Option ℝ
  | [] => none
  | x :: r => some (r.foldl max x)

/-- The 20-second-band filtering of lines 453–459: each component passes
through `apply_bandpass_filter` with `low = 0.02` and
`high = min(0.5, 0.9 × nyquist)`; the status is discarded (`_`), so on
filter failure the unfiltered samples flow on. -/
noncomputable def msFiltered (ff : FFilt ℝ) (x : List (Option ℝ)) (sampling_rate : ℝ) :
    List (Option ℝ) :=
  (apply_bandpass_filter ff x sampling_rate (some 0.02)
    (some (min 0.5 (sampling_rate / 2 * 0.9))) 4).1

/-- Lines 487–492: depth correction `-0.0035 × (depth − 50)`, applied iff
a depth is given and exceeds 50 km (Python truthiness of
`earthquake_depth_km` excludes only 0, which fails `> 50` anyway). -/
noncomputable def depth_correction_term : Option ℝ → ℝ
  | some dk => if 50 < dk then -0.0035 * (dk - 50) else 0
  | none => 0

/-- The arithmetic core of lines 461–495 on the (finite, non-empty)
filtered component samples: amplitudes in µm (mm × 1000), the horizontal
vector `sqrt(n² + e²)`, the IASPEI formula with the fixed 20 s period, the
depth correction, and the final rounding. -/
noncomputable def msCore (v n e : List ℝ) (distance_km : ℝ) (depth : Option ℝ) :
    MsOutcome :=
  .ok (round1 (Real.logb 10
      (max (1000 * (npMax (v.map (fun x => |x|))).getD 0)
        ((npMax (List.zipWith (fun a b => Real.sqrt (a ^ 2 + b ^ 2) * 1000) n e)).getD 0)
        / 20)
    + 1.66 * Real.logb 10 (distance_km / 111.195) + 3.3
    + depth_correction_term depth))

/-- Lines 461–527 after filtering: an empty filtered component makes
`np.max` raise (escaping as `NameError`, see the section comment), a
length mismatch between the horizontal components makes the broadcast
raise likewise, a non-finite sample yields a NaN magnitude, and otherwise
the arithmetic core runs. -/
noncomputable def msAfterFilter (fv fn fe : List (Option ℝ)) (distance_km : ℝ)
    (depth : Option ℝ) : MsOutcome :=
  if fv.length = 0 ∨ fn.length = 0 ∨ fe.length = 0 then .uncaught "NameError"
  else if fn.length ≠ fe.length then .uncaught "NameError"
  else if fv.any Option.isNone ∨ fn.any Option.isNone ∨ fe.any Option.isNone then
    .nanResult
  else msCore (fv.filterMap id) (fn.filterMap id) (fe.filterMap id) distance_km depth

/-- `EnhancedSeismicProcessor.calculate_ms_magnitude` (lines 402–534):
the three validation gates of lines 429–451, then filtering and the
arithmetic of lines 453–527. -/
noncomputable def calculate_ms_magnitude (ff : FFilt ℝ)
    (north_data east_data vertical_data : List (Option ℝ))
    (distance_km sampling_rate : ℝ) (earthquake_depth_km : Option ℝ) : MsOutcome :=
  if distance_km < 200 then .err "Afstand for kort"
  else if 16000 < distance_km then .err "Afstand for lang"
  else if sampling_rate / 2 < 0.5 then .err "Sampling rate for lav"
  else
    msAfterFilter (msFiltered ff vertical_data sampling_rate)
      (msFiltered ff north_data sampling_rate)
      (msFiltered ff east_data sampling_rate)
      distance_km earthquake_depth_km

/-! ### The claim-side amplitude quantities -/

/-- Greatest element of a list of nonnegative reals (0 for the empty
list). -/
noncomputable def listMax (l : List ℝ) : ℝ := l.foldr max 0

/-- Peak absolute amplitude of a sample sequence. -/
noncomputable def peakAbs (l : List ℝ) : ℝ := listMax (l.map (fun x => |x|))

/-- Peak of the sample-by-sample horizontal vector `sqrt(n² + e²)`. -/
noncomputable def horizontalPeak (n e : List ℝ) : ℝ :=
  listMax (List.zipWith (fun a b => Real.sqrt (a ^ 2 + b ^ 2)) n e)

/-- The amplitude `A` used by the Ms formula: the maximum, after the
mm → µm conversion, of the vertical peak and the horizontal vector peak. -/
noncomputable def msAmplitude (v n e : List ℝ) : ℝ :=
  max (1000 * peakAbs v) (1000 * horizontalPeak n e)

/-- The Ms value the claims describe, before rounding. -/
noncomputable def msFormula (A distance_km : ℝ) (depth : Option ℝ) : ℝ :=
  Real.logb 10 (A / 20) + 1.66 * Real.logb 10 (distance_km / 111.195) + 3.3
    + depth_correction_term depth

theorem foldl_max_eq (l : List ℝ) : ∀ a : ℝ, 0 ≤ a → l.foldl max a = max a (listMax l) := by
  induction l with
  | nil =>
      intro a ha
      simp [listMax, max_eq_left ha]
  | cons x r ih =>
      intro a ha
      have hax : (0:ℝ) ≤ max a x := le_trans ha (le_max_left a x)
      simp only [List.foldl_cons]
      rw [ih (max a x) hax]
      show max (max a x) (listMax r) = max a (listMax (x :: r))
      rw [show listMax (x :: r) = max x (listMax r) from rfl, max_assoc]

theorem npMax_getD_eq (l : List ℝ) (hl : l ≠ []) (hpos : ∀ y ∈ l, 0 ≤ y) :
    (npMax l).getD 0 = listMax l := by
  cases l with
  | nil => exact absurd rfl hl
  | cons x r =>
      show (r.foldl max x) = listMax (x :: r)
      rw [foldl_max_eq r x (hpos x (List.mem_cons_self x r))]
      rfl

theorem listMax_map_mul_left (c : ℝ) (hc : 0 ≤ c) (l : List ℝ) :
    listMax (l.map (fun x => c * x)) = c * listMax l := by
  induction l with
  | nil => simp [listMax]
  | cons x r ih =>
      show max (c * x) (listMax (r.map (fun x => c * x))) = c * max x (listMax r)
      rw [ih, mul_max_of_nonneg x (listMax r) hc]

theorem listMax_map_mul_right (c : ℝ) (hc : 0 ≤ c) (l : List ℝ) :
    listMax (l.map (fun x => x * c)) = listMax l * c := by
  have : (fun x : ℝ => x * c) = fun x => c * x := by
    funext x
    ring
  rw [this, listMax_map_mul_left c hc, mul_comm]

theorem zipWith_ne_nil {f : ℝ → ℝ → ℝ} (n e : List ℝ) (hn : n ≠ []) (he : e ≠ []) :
    List.zipWith f n e ≠ [] := by
  cases n with
  | nil => exact absurd rfl hn
  | cons a n' =>
      cases e with
      | nil => exact absurd rfl he
      | cons b e' => simp [List.zipWith]

theorem zipWith_nonneg {f : ℝ → ℝ → ℝ} (hf : ∀ a b, 0 ≤ f a b) :
    ∀ (n e : List ℝ), ∀ y ∈ List.zipWith f n e, 0 ≤ y := by
  intro n
  induction n with
  | nil => simp
  | cons a n' ih =>
      intro e y hy
      cases e with
      | nil => simp at hy
      | cons b e' =>
          rcases List.mem_cons.mp hy with rfl | hy
          · exact hf a b
          · exact ih e' y hy

/-- A list of wrapped finite samples unwraps to itself. -/
theorem filterMap_id_map_some {α : Type} (l : List α) : (l.map some).filterMap id = l := by
  induction l with
  | nil => rfl
  | cons x xs ih => simp [List.filterMap_cons, ih]

/-- The arithmetic core computes exactly the rounded claim formula at the
claim-side amplitude. -/
theorem msCore_eval (v n e : List ℝ) (distance_km : ℝ) (depth : Option ℝ)
    (hv : v ≠ []) (hn : n ≠ []) (he : e ≠ []) :
    msCore v n e distance_km depth
      = .ok (round1 (msFormula (msAmplitude v n e) distance_km depth)) := by
  unfold msCore msFormula msAmplitude
  have h1 : (npMax (v.map (fun x => |x|))).getD 0 = peakAbs v := by
    apply npMax_getD_eq
    · simp [hv]
    · intro y hy
      obtain ⟨x, -, rfl⟩ := List.mem_map.mp hy
      exact abs_nonneg x
  have h2 : (npMax (List.zipWith (fun a b => Real.sqrt (a ^ 2 + b ^ 2) * 1000) n e)).getD 0
      = 1000 * horizontalPeak n e := by
    rw [npMax_getD_eq _ (zipWith_ne_nil n e hn he)
      (zipWith_nonneg (fun a b => by positivity) n e)]
    unfold horizontalPeak
    rw [show List.zipWith (fun a b => Real.sqrt (a ^ 2 + b ^ 2) * 1000) n e
        = (List.zipWith (fun a b => Real.sqrt (a ^ 2 + b ^ 2)) n e).map (fun x => x * 1000) from
      (List.map_zipWith (fun x => x * 1000) (fun a b => Real.sqrt (a ^ 2 + b ^ 2)) n e).symm]
    rw [listMax_map_mul_right 1000 (by norm_num), mul_comm]
  rw [h1, h2]

/-- Master evaluation lemma for `calculate_ms_magnitude`: whenever the
validation gates pass and the three filtered components are non-empty,
all-finite, with matching horizontal lengths, the returned magnitude is
the rounded claim formula at the claim-side amplitude. -/
theorem calculate_ms_eval (ff : FFilt ℝ) (north east vertical : List (Option ℝ))
    (distance_km sampling_rate : ℝ) (depth : Option ℝ) (vs ns es : List ℝ)
    (hV : msFiltered ff vertical sampling_rate = vs.map some)
    (hN : msFiltered ff north sampling_rate = ns.map some)
    (hE : msFiltered ff east sampling_rate = es.map some)
    (hv : vs ≠ []) (hn : ns ≠ []) (he : es ≠ [])
    (hlen : ns.length = es.length)
    (hd1 : ¬ distance_km < 200) (hd2 : ¬ 16000 < distance_km)
    (hsr : ¬ sampling_rate / 2 < 0.5) :
    calculate_ms_magnitude ff north east vertical distance_km sampling_rate depth
      = .ok (round1 (msFormula (msAmplitude vs ns es) distance_km depth)) := by
  unfold calculate_ms_magnitude
  rw [if_neg hd1, if_neg hd2, if_neg hsr, hV, hN, hE]
  unfold msAfterFilter
  rw [if_neg (by simp [List.length_eq_zero, hv, hn, he]),
    if_neg (by simp [hlen]),
    if_neg (by simp),
    filterMap_id_map_some, filterMap_id_map_some, filterMap_id_map_some]
  exact msCore_eval vs ns es distance_km depth hv hn he

/-- Claim C1.  For every call of `calculate_ms_magnitude` that reaches the
formula step — distance within `[200, 16000]` km, Nyquist at least 0.5 Hz,
and band-filtered components that are non-empty, finite and (for the
horizontal pair) of equal length with a positive peak amplitude — the
returned magnitude is exactly the rounding to one decimal of
`log10(A / 20) + 1.66 · log10(distance_km / 111.195) + 3.3`, where `A` is
the maximum, in micrometres, of the vertical peak absolute amplitude and
the peak of the sample-by-sample horizontal vector `sqrt(n² + e²)` of the
band-filtered components, with the term `-0.0035 · (depth − 50)` added
exactly when a depth is given and exceeds 50 km
(`depth_correction_term`). -/
theorem claim_C1 (ff : FFilt ℝ) (north east vertical : List (Option ℝ))
    (distance_km sampling_rate : ℝ) (depth : Option ℝ) (vs ns es : List ℝ)
    (hV : msFiltered ff vertical sampling_rate = vs.map some)
    (hN : msFiltered ff north sampling_rate = ns.map some)
    (hE : msFiltered ff east sampling_rate = es.map some)
    (hv : vs ≠ []) (hn : ns ≠ []) (he : es ≠ [])
    (hlen : ns.length = es.length)
    (hd1 : 200 ≤ distance_km) (hd2 : distance_km ≤ 16000)
    (hsr : 0.5 ≤ sampling_rate / 2)
    (_hA : 0 < msAmplitude vs ns es) :
    calculate_ms_magnitude ff north east vertical distance_km sampling_rate depth
      = .ok (round1 (Real.logb 10 (msAmplitude vs ns es / 20)
          + 1.66 * Real.logb 10 (distance_km / 111.195) + 3.3
          + depth_correction_term depth)) :=
  calculate_ms_eval ff north east vertical distance_km sampling_rate depth vs ns es
    hV hN hE hv hn he hlen (not_lt.mpr hd1) (not_lt.mpr hd2) (not_lt.mpr hsr)

/-- Evaluation of the 20-second-band filter request under the ideal filter
response: for the cutoffs `low = 0.02`, `high = min(0.5, 0.9 × nyquist)`
in general position (the three hypotheses), finite non-empty data passes
through unchanged. -/
theorem msFiltered_ideal (l : List ℝ) (sampling_rate : ℝ) (hl : l ≠ [])
    (h1 : ¬ (sampling_rate / 2 ≤ min 0.5 (sampling_rate / 2 * 0.9)))
    (h2 : ¬ (min 0.5 (sampling_rate / 2 * 0.9) ≤ 0.02))
    (h3 : ¬ (sampling_rate / 2 * 0.95 ≤ min 0.5 (sampling_rate / 2 * 0.9))) :
    msFiltered idealFilt (l.map some) sampling_rate = l.map some := by
  have hlen : ¬ (l.map some).length = 0 := by simpa [List.length_eq_zero] using hl
  have hfin : (l.map some).any Option.isNone = false := any_isNone_map_some l
  have h02 : ¬ ((0.02:ℝ) ≤ 0) := by norm_num
  have h001 : ¬ ((0.02:ℝ) ≤ 0.001) := by norm_num
  unfold msFiltered
  simp only [apply_bandpass_filter, hfin, Bool.false_eq_true, false_and, if_false,
    if_neg hlen, if_neg h02, if_neg h1, bandpassStep, if_neg h2, if_neg h3,
    if_neg h001, runFilter, idealFilt, any_isNone_map_some, filterMap_id_map_some]

/-- Claim C1, witness: a single-sample unit signal on all components at
1500 km, 100 Hz, depth 100 km. -/
theorem claim_C1_witness :
    calculate_ms_magnitude idealFilt [some 1] [some 1] [some 1] 1500 100 (some 100)
      = .ok (round1 (Real.logb 10 (msAmplitude [1] [1] [1] / 20)
          + 1.66 * Real.logb 10 ((1500 : ℝ) / 111.195) + 3.3
          + depth_correction_term (some 100))) :=
  claim_C1 idealFilt [some 1] [some 1] [some 1] 1500 100 (some 100) [1] [1] [1]
    (msFiltered_ideal [1] 100 (by simp)
      (by rw [min_eq_left (by norm_num : (0.5:ℝ) ≤ 100 / 2 * 0.9)]; norm_num)
      (by rw [min_eq_left (by norm_num : (0.5:ℝ) ≤ 100 / 2 * 0.9)]; norm_num)
      (by rw [min_eq_left (by norm_num : (0.5:ℝ) ≤ 100 / 2 * 0.9)]; norm_num))
    (msFiltered_ideal [1] 100 (by simp)
      (by rw [min_eq_left (by norm_num : (0.5:ℝ) ≤ 100 / 2 * 0.9)]; norm_num)
      (by rw [min_eq_left (by norm_num : (0.5:ℝ) ≤ 100 / 2 * 0.9)]; norm_num)
      (by rw [min_eq_left (by norm_num : (0.5:ℝ) ≤ 100 / 2 * 0.9)]; norm_num))
    (msFiltered_ideal [1] 100 (by simp)
      (by rw [min_eq_left (by norm_num : (0.5:ℝ) ≤ 100 / 2 * 0.9)]; norm_num)
      (by rw [min_eq_left (by norm_num : (0.5:ℝ) ≤ 100 / 2 * 0.9)]; norm_num)
      (by rw [min_eq_left (by norm_num : (0.5:ℝ) ≤ 100 / 2 * 0.9)]; norm_num))
    (by simp) (by simp) (by simp) rfl (by norm_num) (by norm_num) (by norm_num)
    (lt_max_iff.mpr (Or.inl (by norm_num [peakAbs, listMax])))

/-- Claim C8, code bug.  With an empty north component (and otherwise
valid arguments), `np.max(np.abs(filtered_north))` raises a `ValueError`;
the `except` handler of lines 529–534 then evaluates
`traceback.format_exc()`, but `traceback` is not imported at module scope
in `seismic_processor.py`, so the handler itself raises `NameError` and
the exception escapes to the caller instead of the promised
`(None, structured-reason)` return. -/
theorem claim_C8_bug :
    calculate_ms_magnitude idealFilt [] [some 1] [some 1] 1500 100 none
      = .uncaught "NameError" := by
  unfold calculate_ms_magnitude
  rw [if_neg (by norm_num), if_neg (by norm_num), if_neg (by norm_num)]
  have hN : msFiltered idealFilt [] 100 = [] := by
    unfold msFiltered
    rw [apply_bandpass_filter, if_pos (by simp)]
  rw [hN]
  unfold msAfterFilter
  have hc : (msFiltered idealFilt [some 1] 100).length = 0
      ∨ ([] : List (Option ℝ)).length = 0
      ∨ (msFiltered idealFilt [some 1] 100).length = 0 := Or.inr (Or.inl rfl)
  rw [if_pos hc]

/-! ### The C7 synthetic-sinusoid scenario

A 20 s-period sinusoid of amplitude `a` µm (i.e. `a / 1000` mm, the input
unit of `calculate_ms_magnitude`), sampled at 1 Hz over one period, and
injected identically into all three components. -/

/-- One period of the synthetic sinusoid, in mm, sampled at 1 Hz. -/
noncomputable def sinusoid20 (a : ℝ) : List ℝ :=
  (List.range 20).map fun k : ℕ => a / 1000 * Real.sin (2 * Real.pi * (k : ℝ) / 20)

/-- The sinusoid as an input sample sequence (all samples finite). -/
noncomputable def sinusoid20Input (a : ℝ) : List (Option ℝ) := (sinusoid20 a).map some

theorem sinusoid20_ne_nil (a : ℝ) : sinusoid20 a ≠ [] := by
  simp [sinusoid20, List.range_succ]

theorem listMax_le (l : List ℝ) (c : ℝ) (hc : 0 ≤ c) (h : ∀ y ∈ l, y ≤ c) :
    listMax l ≤ c := by
  induction l with
  | nil => exact hc
  | cons x r ih =>
      show max x (listMax r) ≤ c
      exact max_le (h x (List.mem_cons_self x r))
        (ih fun y hy => h y (List.mem_cons_of_mem x hy))

theorem le_listMax (l : List ℝ) (y : ℝ) (hy : y ∈ l) : y ≤ listMax l := by
  induction l with
  | nil => simp at hy
  | cons x r ih =>
      rcases List.mem_cons.mp hy with rfl | hy
      · exact le_max_left y (listMax r)
      · exact le_trans (ih hy) (le_max_right x (listMax r))

/-- Peak absolute amplitude of the sampled sinusoid: every sample is at
most `a / 1000` in magnitude and the sample at `k = 5`
(`sin(π/2) = 1`) attains it. -/
theorem peakAbs_sinusoid (a : ℝ) (ha : 0 < a) : peakAbs (sinusoid20 a) = a / 1000 := by
  unfold peakAbs sinusoid20
  rw [List.map_map]
  apply le_antisymm
  · apply listMax_le _ _ (by positivity)
    intro y hy
    obtain ⟨k, -, rfl⟩ := List.mem_map.mp hy
    show |a / 1000 * Real.sin (2 * Real.pi * k / 20)| ≤ a / 1000
    rw [abs_mul, abs_of_pos (by positivity : (0:ℝ) < a / 1000)]
    exact mul_le_of_le_one_right (by positivity)
      (Real.abs_sin_le_one (2 * Real.pi * k / 20))
  · apply le_listMax
    have h5 : |a / 1000 * Real.sin (2 * Real.pi * ((5:ℕ):ℝ) / 20)| = a / 1000 := by
      rw [show 2 * Real.pi * ((5:ℕ):ℝ) / 20 = Real.pi / 2 by push_cast; ring,
        Real.sin_pi_div_two, mul_one, abs_of_pos (by positivity)]
    exact List.mem_map.mpr
      ⟨(5:ℕ), List.mem_range.mpr (by norm_num : (5:ℕ) < 20), h5⟩

/-- The horizontal vector of two identical components carries a factor
`sqrt 2`: `sqrt(x² + x²) = sqrt 2 · |x|` sample by sample. -/
theorem horizontalPeak_same (l : List ℝ) :
    horizontalPeak l l = Real.sqrt 2 * peakAbs l := by
  unfold horizontalPeak peakAbs
  rw [List.zipWith_same]
  have hfun : (fun x : ℝ => Real.sqrt (x ^ 2 + x ^ 2)) = fun x => Real.sqrt 2 * |x| := by
    funext x
    rw [← two_mul, Real.sqrt_mul (by norm_num), Real.sqrt_sq_eq_abs]
  rw [hfun,
    show (fun x : ℝ => Real.sqrt 2 * |x|) = (fun y => Real.sqrt 2 * y) ∘ (fun x => |x|)
      from rfl,
    ← List.map_map]
  exact listMax_map_mul_left (Real.sqrt 2) (Real.sqrt_nonneg 2) _

/-- With the sinusoid on all three components, the amplitude used by the
formula is `sqrt 2 · a` µm, not `a` µm. -/
theorem msAmplitude_sinusoid (a : ℝ) (ha : 0 < a) :
    msAmplitude (sinusoid20 a) (sinusoid20 a) (sinusoid20 a) = Real.sqrt 2 * a := by
  unfold msAmplitude
  rw [horizontalPeak_same, peakAbs_sinusoid a ha]
  have h1 : (1000 : ℝ) * (a / 1000) = a := by ring
  have h2 : (1000 : ℝ) * (Real.sqrt 2 * (a / 1000)) = Real.sqrt 2 * a := by ring
  rw [h1, h2]
  have hsq : (1:ℝ) ≤ Real.sqrt 2 := by
    rw [show (1:ℝ) = Real.sqrt 1 from Real.sqrt_one.symm]
    exact Real.sqrt_le_sqrt (by norm_num)
  exact max_eq_right (le_mul_of_one_le_left ha.le hsq)

/-- Full evaluation of `calculate_ms_magnitude` on the C7 scenario: the
sinusoid of amplitude `a` µm on all three components, 1500 km, 1 Hz,
depth 0, under the ideal filter response. -/
theorem ms_sinusoid (a : ℝ) (ha : 0 < a) :
    calculate_ms_magnitude idealFilt (sinusoid20Input a) (sinusoid20Input a)
        (sinusoid20Input a) 1500 1 (some 0)
      = .ok (round1 (Real.logb 10 (Real.sqrt 2 * a / 20)
          + 1.66 * Real.logb 10 ((1500 : ℝ) / 111.195) + 3.3)) := by
  have hmin : min (0.5:ℝ) (1 / 2 * 0.9) = 0.45 := by
    rw [min_eq_right (by norm_num)]
    norm_num
  have hf : msFiltered idealFilt (sinusoid20Input a) 1 = (sinusoid20 a).map some :=
    msFiltered_ideal (sinusoid20 a) 1 (sinusoid20_ne_nil a)
      (by rw [hmin]; norm_num) (by rw [hmin]; norm_num) (by rw [hmin]; norm_num)
  have := calculate_ms_eval idealFilt (sinusoid20Input a) (sinusoid20Input a)
    (sinusoid20Input a) 1500 1 (some 0) (sinusoid20 a) (sinusoid20 a) (sinusoid20 a)
    hf hf hf (sinusoid20_ne_nil a) (sinusoid20_ne_nil a) (sinusoid20_ne_nil a) rfl
    (by norm_num) (by norm_num) (by norm_num)
  rw [this, msAmplitude_sinusoid a ha]
  unfold msFormula
  rw [show depth_correction_term (some 0) = 0 from by norm_num [depth_correction_term],
    add_zero]

/-- Rounding to one decimal moves a value by at most 0.05. -/
theorem round1_close (x : ℝ) : |round1 x - x| ≤ 0.05 := by
  unfold round1
  have h := abs_sub_round (x * 10)
  have heq : ((round (x * 10) : ℤ) : ℝ) / 10 - x
      = -((x * 10 - (round (x * 10) : ℤ)) / 10) := by
    ring
  rw [heq, abs_neg, abs_div]
  rw [show |(10:ℝ)| = 10 from abs_of_pos (by norm_num)]
  linarith

/-- Upper bound on a base-10 logarithm from an integer power comparison. -/
theorem logb_ten_lt (x : ℝ) (hx : 0 < x) (p q : ℕ) (hq : 0 < q)
    (h : x ^ q < (10:ℝ) ^ p) : Real.logb 10 x < (p : ℝ) / q := by
  rw [Real.logb_lt_iff_lt_rpow (by norm_num) hx]
  by_contra hle
  push_neg at hle
  have hpow : ((10:ℝ) ^ ((p : ℝ) / (q : ℝ))) ^ q ≤ x ^ q :=
    pow_le_pow_left₀ (Real.rpow_nonneg (by norm_num) _) hle q
  rw [← Real.rpow_natCast ((10:ℝ) ^ ((p : ℝ) / (q : ℝ))) q,
    ← Real.rpow_mul (by norm_num : (0:ℝ) ≤ 10),
    div_mul_cancel₀ _ (by exact_mod_cast hq.ne' : (q : ℝ) ≠ 0),
    Real.rpow_natCast] at hpow
  linarith

/-- Lower bound on a base-10 logarithm from an integer power comparison. -/
theorem lt_logb_ten (x : ℝ) (hx : 0 < x) (p q : ℕ) (hq : 0 < q)
    (h : (10:ℝ) ^ p < x ^ q) : (p : ℝ) / q < Real.logb 10 x := by
  rw [Real.lt_logb_iff_rpow_lt (by norm_num) hx]
  by_contra hle
  push_neg at hle
  have hpow : x ^ q ≤ ((10:ℝ) ^ ((p : ℝ) / (q : ℝ))) ^ q :=
    pow_le_pow_left₀ hx.le hle q
  rw [← Real.rpow_natCast ((10:ℝ) ^ ((p : ℝ) / (q : ℝ))) q,
    ← Real.rpow_mul (by norm_num : (0:ℝ) ≤ 10),
    div_mul_cancel₀ _ (by exact_mod_cast hq.ne' : (q : ℝ) ≠ 0),
    Real.rpow_natCast] at hpow
  linarith

/-- `1500 / 111.195 = 100000 / 7413` and `7413^100 > 10^386`, so the
distance term exceeds 1.09. -/
theorem logb_dist_lb : (109:ℝ) / 100 < Real.logb 10 ((1500:ℝ) / 111.195) := by
  rw [show (1500:ℝ) / 111.195 = 100000 / 7413 by norm_num]
  have h109 : ((109:ℕ):ℝ) / ((100:ℕ):ℝ) = (109:ℝ) / 100 := by norm_num
  rw [← h109]
  apply lt_logb_ten _ (by norm_num) 109 100 (by norm_num)
  rw [div_pow, lt_div_iff₀ (by positivity)]
  norm_num

/-- `7413^100 < 10^391`, so the distance term is below 1.14. -/
theorem logb_dist_ub : Real.logb 10 ((1500:ℝ) / 111.195) < (114:ℝ) / 100 := by
  rw [show (1500:ℝ) / 111.195 = 100000 / 7413 by norm_num]
  have h114 : ((114:ℕ):ℝ) / ((100:ℕ):ℝ) = (114:ℝ) / 100 := by norm_num
  rw [← h114]
  apply logb_ten_lt _ (by norm_num) 114 100 (by norm_num)
  rw [div_pow, div_lt_iff₀ (by positivity)]
  norm_num

/-- Bounds on `log10(sqrt 2)`: `0.15 < log10(sqrt 2) < 0.151`, from
`10^150 < 2^500 < 10^151`. -/
theorem logb_sqrt_two_bounds :
    (3:ℝ) / 20 < Real.logb 10 (Real.sqrt 2)
    ∧ Real.logb 10 (Real.sqrt 2) < (151:ℝ) / 1000 := by
  have hhalf : Real.logb 10 (Real.sqrt 2) = Real.logb 10 2 / 2 := by
    unfold Real.logb
    rw [Real.log_sqrt (by norm_num)]
    ring
  have hlb : ((3:ℕ):ℝ) / ((10:ℕ):ℝ) < Real.logb 10 2 :=
    lt_logb_ten 2 (by norm_num) 3 10 (by norm_num) (by norm_num)
  have hub : Real.logb 10 2 < ((151:ℕ):ℝ) / ((500:ℕ):ℝ) :=
    logb_ten_lt 2 (by norm_num) 151 500 (by norm_num) (by norm_num)
  norm_num at hlb hub
  constructor
  · rw [hhalf]
    linarith
  · rw [hhalf]
    linarith

/-- Claim C7, amended.  For the synthetic 20 s-period sinusoid of
amplitude `A` µm injected identically into all three components at
1500 km and depth 0, with the band filter passing the in-band signal
unchanged, `calculate_ms_magnitude` returns a value within 0.05 magnitude
units of `log10(√2·A / 20) + 1.66·log10(1500 / 111.195) + 3.3` — i.e. of
the claimed formula with the amplitude `√2·A` instead of `A`, because the
horizontal vector `sqrt(n² + e²)` of two identical components carries a
factor `√2` and the code takes the larger of the vertical and horizontal
peaks. -/
theorem claim_C7_amended (a : ℝ) (ha : 0 < a) :
    ∃ m, calculate_ms_magnitude idealFilt (sinusoid20Input a) (sinusoid20Input a)
        (sinusoid20Input a) 1500 1 (some 0) = .ok m
      ∧ |m - (Real.logb 10 (Real.sqrt 2 * a / 20)
          + 1.66 * Real.logb 10 ((1500:ℝ) / 111.195) + 3.3)| ≤ 0.05 :=
  ⟨_, ms_sinusoid a ha, round1_close _⟩

/-- Claim C7, witness for the amended theorem at `A = 20` µm. -/
theorem claim_C7_witness :
    ∃ m, calculate_ms_magnitude idealFilt (sinusoid20Input 20) (sinusoid20Input 20)
        (sinusoid20Input 20) 1500 1 (some 0) = .ok m
      ∧ |m - (Real.logb 10 (Real.sqrt 2 * 20 / 20)
          + 1.66 * Real.logb 10 ((1500:ℝ) / 111.195) + 3.3)| ≤ 0.05 :=
  claim_C7_amended 20 (by norm_num)

/-- Claim C7, counterexample.  At `A = 20` µm the claimed formula value is
`0 + 1.66·log10(1500/111.195) + 3.3 ≈ 5.176`, but the code computes the
amplitude `√2·20` (horizontal vector of identical components), giving
`≈ 5.326`, rounded to 5.3 — more than 0.05 away from the claimed value. -/
theorem claim_C7_counterexample :
    ¬ ∃ m, calculate_ms_magnitude idealFilt (sinusoid20Input 20) (sinusoid20Input 20)
        (sinusoid20Input 20) 1500 1 (some 0) = .ok m
      ∧ |m - (Real.logb 10 ((20:ℝ) / 20)
          + 1.66 * Real.logb 10 ((1500:ℝ) / 111.195) + 3.3)| ≤ 0.05 := by
  rintro ⟨m, hm, hb⟩
  rw [ms_sinusoid 20 (by norm_num)] at hm
  injection hm with hm'
  have h1 : (109:ℝ) / 100 < Real.logb 10 ((1500:ℝ) / 111.195) := logb_dist_lb
  have h2 : Real.logb 10 ((1500:ℝ) / 111.195) < (114:ℝ) / 100 := logb_dist_ub
  have hs12 := logb_sqrt_two_bounds
  have harg : Real.logb 10 (Real.sqrt 2 * 20 / 20) = Real.logb 10 (Real.sqrt 2) := by
    rw [show Real.sqrt 2 * 20 / 20 = Real.sqrt 2 by ring]
  have hround : round ((Real.logb 10 (Real.sqrt 2 * 20 / 20)
      + 1.66 * Real.logb 10 ((1500:ℝ) / 111.195) + 3.3) * 10) = (53:ℤ) := by
    rw [harg, round_eq]
    apply Int.floor_eq_iff.mpr
    constructor
    · push_cast
      linarith [hs12.1]
    · push_cast
      linarith [hs12.2]
  have hm53 : m = 53 / 10 := by
    rw [← hm']
    unfold round1
    rw [hround]
    norm_num
  have hlog1 : Real.logb 10 ((20:ℝ) / 20) = 0 := by
    rw [show ((20:ℝ) / 20) = 1 by norm_num]
    exact Real.logb_one
  rw [hm53, hlog1] at hb
  have hpos : (0:ℝ) < 53 / 10
      - (0 + 1.66 * Real.logb 10 ((1500:ℝ) / 111.195) + 3.3) := by
    linarith
  rw [abs_of_pos hpos] at hb
  linarith
